import Mathlib

/-!
Shallow embedding of the spike-detection engine of `graphml_to_spikes.py`:
risk classification from CAMEO codes and theme labels, GraphML-to-daily-count
extraction, baseline estimation with fallback, and delta-based spike
filtering/ranking.  Python strings are modelled as `String` (ASCII case
mapping), dates as integer ordinals, float arithmetic exactly over `ℚ`, and
pandas DataFrames as lists of records.  Grouped aggregation (`groupby`) is
modelled as a map over the sorted, duplicate-free list of keys, matching
pandas' sorted group keys.
-/

namespace RiskingMap

/-- Association-list lookup, modelling Python `dict.get` and pandas key joins. -/
def lookupKey {κ : Type} {β : Type} [DecidableEq κ] : List (κ × β) → κ → Option β
  | [], _ => none
  | (k, v) :: rest, k' => if k = k' then some v else lookupKey rest k'

/-- `beginsWith s t`: the char list `s` is an initial segment of `t`. -/
def beginsWith : List Char → List Char → Bool
  | [], _ => true
  | _ :: _, [] => false
  | c :: cs, d :: ds => c == d && beginsWith cs ds

/-- `occursIn s t`: the char list `s` occurs contiguously inside `t`;
models Python `s in t` on strings. -/
def occursIn (s : List Char) : List Char → Bool
  | [] => s.isEmpty
  | d :: ds => beginsWith s (d :: ds) || occursIn s ds

/-- Remove the maximal whitespace suffix (helper for Python `str.strip`). -/
def stripTail (l : List Char) : List Char :=
  (l.reverse.dropWhile Char.isWhitespace).reverse

/-- Python `str.strip()` on the char list: drop leading and trailing whitespace. -/
def pyStrip (l : List Char) : List Char :=
  stripTail (l.dropWhile Char.isWhitespace)

/-- Python `str.isdigit()` restricted to ASCII digits: nonempty and all digits. -/
def isDigits (l : List Char) : Bool :=
  !l.isEmpty && l.all Char.isDigit

/-- Value of a digit string, modelling Python `int(...)` on a digit string. -/
def toNatDigits (l : List Char) : Nat :=
  l.foldl (fun a c => a * 10 + (c.toNat - 48)) 0

/-- Absolute value written as the code's `.abs()` branch; equals `|q|`. -/
def absQ (q : ℚ) : ℚ := if q < 0 then -q else q

-- ==== Risk categories (module-level constants of the source) ====

def RISK_MILITARY : String := "MILITARY"
def RISK_CIVIL_UNREST : String := "CIVIL_UNREST"
def RISK_POLITICAL : String := "POLITICAL"
def RISK_ECONOMIC : String := "ECONOMIC"
def RISK_NATURAL_DISASTER : String := "NATURAL_DISASTER"
def RISK_OTHER : String := "OTHER"

/-- `_classify_by_cameo`: classify from the CAMEO code's first two (stripped)
characters when both are digits; unmapped roots give `none`. -/
def classify_by_cameo (cameo : String) : Option String :=
  if cameo.data = [] then none
  else
    let stripped := pyStrip cameo.data
    let root_str := stripped.take 2
    if isDigits root_str then
      let root := toNatDigits root_str
      if root ∈ [18, 19, 20, 15, 17] then some RISK_MILITARY
      else if root = 14 then some RISK_CIVIL_UNREST
      else if root ∈ [10, 11, 12, 13, 16] then some RISK_POLITICAL
      else if root ∈ [6, 7] then some RISK_ECONOMIC
      else none
    else none

/-- Keyword buckets of `_classify_by_theme_labels`, in source order. -/
def naturalKws : List String :=
  ["NATURAL_DISASTER", "EARTHQUAKE", "FLOOD", "TYPHOON", "HURRICANE", "TSUNAMI", "WILDFIRE", "LANDSLIDE"]

def militaryKws : List String :=
  ["MILITARY", "ARMEDCONFLICT", "WAR", "INVASION", "MISSILE", "AIRSTRIKE", "BOMBARD"]

def protestKws : List String :=
  ["PROTEST", "DEMONSTRATION", "STRIKE", "RIOT", "MOBILIZATION"]

def terrorKws : List String :=
  ["TERROR", "TERRORISM", "BOMBING", "INSURGENCY"]

def politicalKws : List String :=
  ["ELECTION", "GOVERNMENT", "COUP", "REGIME", "PARLIAMENT", "SANCTION"]

def economicKws : List String :=
  ["ECONOMY", "TRADE", "SANCTION", "TARIFF", "EXPORT", "IMPORT"]

/-- Upper-cased char lists of the theme labels (`[t.upper() for t in theme_labels]`,
ASCII case mapping). -/
def upperLabels (theme_labels : List String) : List (List Char) :=
  theme_labels.map (fun t => t.data.map Char.toUpper)

/-- The source's inner `contains_any`: some substring of the bucket occurs in
some upper-cased label. -/
def contains_any (substrings : List String) (up : List (List Char)) : Bool :=
  up.any (fun t => substrings.any (fun s => occursIn s.data t))

/-- `_classify_by_theme_labels`: scan the upper-cased labels against the keyword
buckets in source order (natural disaster, military, protest, terror, political,
economic); first matching bucket wins. -/
def classify_by_theme_labels (theme_labels : List String) : Option String :=
  if theme_labels.isEmpty then none
  else
    let up := upperLabels theme_labels
    if contains_any naturalKws up then some RISK_NATURAL_DISASTER
    else if contains_any militaryKws up then some RISK_MILITARY
    else if contains_any protestKws up then some RISK_CIVIL_UNREST
    else if contains_any terrorKws up then some RISK_MILITARY
    else if contains_any politicalKws up then some RISK_POLITICAL
    else if contains_any economicKws up then some RISK_ECONOMIC
    else none

/-- The CAMEO phase of `classify_event_risk`: Python's `if cameo:` truthiness
(present and nonempty) guarding `_classify_by_cameo`. -/
def cameoPhase : Option String → Option String
  | none => none
  | some c => if c.data = [] then none else classify_by_cameo c

/-- `classify_event_risk`: CAMEO-based classification first, then theme labels,
else `OTHER`. -/
def classify_event_risk (cameo : Option String) (theme_labels : List String) : String :=
  match cameoPhase cameo with
  | some r => r
  | none =>
    match (if theme_labels.isEmpty then none else classify_by_theme_labels theme_labels) with
    | some r => r
    | none => RISK_OTHER

-- ==== GraphML model and extraction (`graphml_to_daily_counts`) ====

/-- A GraphML node: identifier plus its attribute bag. -/
structure GNode where
  nid : String
  attrs : List (String × String)
deriving DecidableEq, Repr

/-- The loaded graph: nodes with attributes and undirected adjacency edges. -/
structure Graph where
  nodes : List GNode
  edges : List (String × String)
deriving DecidableEq, Repr

/-- `data.get(key)` on a node's attribute bag. -/
def getAttr (n : GNode) (k : String) : Option String :=
  lookupKey n.attrs k

/-- `G.neighbors(node_id)` for an undirected edge list. -/
def neighborsOf (g : Graph) (nid : String) : List String :=
  g.edges.filterMap (fun e =>
    if e.1 = nid then some e.2 else if e.2 = nid then some e.1 else none)

/-- `G.nodes[nbr]`: resolve a node id to its attribute record. -/
def nodeOf (g : Graph) (nid : String) : Option GNode :=
  g.nodes.find? (fun n => n.nid == nid)

/-- Country codes of neighbouring Location nodes (`countries: set[str]`,
truthy attribute values only, deduplicated as a set). -/
def countriesOf (g : Graph) (nid : String) : List String :=
  ((neighborsOf g nid).filterMap (fun nb =>
    match nodeOf g nb with
    | some nd =>
      if getAttr nd "type" = some "Location" then
        match getAttr nd "country" with
        | some cc => if cc = "" then none else some cc
        | none => none
      else none
    | none => none)).dedup

/-- Labels of neighbouring Theme nodes (`theme_labels`, truthy values only,
order preserved). -/
def themesOf (g : Graph) (nid : String) : List String :=
  (neighborsOf g nid).filterMap (fun nb =>
    match nodeOf g nb with
    | some nd =>
      if getAttr nd "type" = some "Theme" then
        match getAttr nd "label" with
        | some lab => if lab = "" then none else some lab
        | none => none
      else none
    | none => none)

/-- Gregorian leap year. -/
def isLeap (y : Nat) : Bool :=
  (y % 4 = 0 && y % 100 ≠ 0) || y % 400 = 0

/-- Days in a month of the proleptic Gregorian calendar. -/
def daysInMonth (y m : Nat) : Nat :=
  if m = 2 then (if isLeap y then 29 else 28)
  else if m ∈ [4, 6, 9, 11] then 30
  else 31

/-- Days strictly before month `m` in year `y`. -/
def daysBeforeMonth (y m : Nat) : Nat :=
  [0, 31, 59, 90, 120, 151, 181, 212, 243, 273, 304, 334].getD (m - 1) 0
    + (if 2 < m && isLeap y then 1 else 0)

/-- Proleptic Gregorian ordinal of a calendar date (day 1 = 0001-01-01). -/
def toOrdinal (y m d : Nat) : Nat :=
  365 * (y - 1) + (y - 1) / 4 + (y - 1) / 400 - (y - 1) / 100
    + daysBeforeMonth y m + d

/-- `datetime.strptime(s, "%Y%m%d").date()` modelled for the 8-digit
`YYYYMMDD` format carried by the date attribute: four-digit year and
zero-padded month/day, validated against the Gregorian calendar
(year at least 1, month 1..12, day within the month). -/
def parseDate8 (s : String) : Option Int :=
  match s.data with
  | [y1, y2, y3, y4, m1, m2, d1, d2] =>
    if isDigits [y1, y2, y3, y4, m1, m2, d1, d2] then
      let y := toNatDigits [y1, y2, y3, y4]
      let m := toNatDigits [m1, m2]
      let d := toNatDigits [d1, d2]
      if 1 ≤ y ∧ 1 ≤ m ∧ m ≤ 12 ∧ 1 ≤ d ∧ d ≤ daysInMonth y m then
        some (Int.ofNat (toOrdinal y m d))
      else none
    else none
  | _ => none

/-- One extracted `(date, country, risk)` row, before aggregation. -/
structure RawRow where
  date : Int
  country_code : String
  risk_type : String
deriving DecidableEq, Repr

/-- Rows contributed by one node of the graph: nothing unless the node is a
valid Event (typed Event, parseable truthy date, at least one resolved
country); otherwise one row per distinct resolved country, all under the
event's single risk category. -/
def eventRowsOf (g : Graph) (n : GNode) : List RawRow :=
  if getAttr n "type" = some "Event" then
    match getAttr n "date" with
    | none => []
    | some ds =>
      if ds = "" then []
      else
        match parseDate8 ds with
        | none => []
        | some d =>
          if countriesOf g n.nid = [] then []
          else
            (countriesOf g n.nid).map (fun cc =>
              { date := d, country_code := cc,
                risk_type := classify_event_risk (getAttr n "cameo") (themesOf g n.nid) })
  else []

/-- All extracted `(event, country)` rows of the graph. -/
def extractRows (g : Graph) : List RawRow :=
  g.nodes.flatMap (eventRowsOf g)

-- ==== Sorted grouping (pandas `groupby(...)` with sorted keys) ====

/-- Strict lexicographic order on pandas 2-tuples of strings. -/
def lt2 (a b : String × String) : Prop :=
  a.1 < b.1 ∨ (a.1 = b.1 ∧ a.2 < b.2)

/-- Reflexive lexicographic order on 2-tuples of strings. -/
def le2 (a b : String × String) : Prop :=
  a.1 < b.1 ∨ (a.1 = b.1 ∧ a.2 ≤ b.2)

/-- Strict lexicographic order on `(date, country, risk)` keys. -/
def lt3 (a b : Int × String × String) : Prop :=
  a.1 < b.1 ∨ (a.1 = b.1 ∧ lt2 a.2 b.2)

/-- Reflexive lexicographic order on `(date, country, risk)` keys. -/
def le3 (a b : Int × String × String) : Prop :=
  a.1 < b.1 ∨ (a.1 = b.1 ∧ le2 a.2 b.2)

instance : DecidableRel lt2 := fun _ _ => by unfold lt2; infer_instance
instance : DecidableRel le2 := fun _ _ => by unfold le2; infer_instance
instance : DecidableRel lt3 := fun _ _ => by unfold lt3; infer_instance
instance : DecidableRel le3 := fun _ _ => by unfold le3; infer_instance

instance : IsTotal (String × String) le2 where
  total a b := by
    rcases lt_trichotomy a.1 b.1 with h | h | h
    · exact Or.inl (Or.inl h)
    · rcases le_total a.2 b.2 with h2 | h2
      · exact Or.inl (Or.inr ⟨h, h2⟩)
      · exact Or.inr (Or.inr ⟨h.symm, h2⟩)
    · exact Or.inr (Or.inl h)

instance : IsTrans (String × String) le2 where
  trans a b c hab hbc := by
    rcases hab with h | ⟨he, h2⟩
    · rcases hbc with h' | ⟨he', _⟩
      · exact Or.inl (lt_trans h h')
      · exact Or.inl (he' ▸ h)
    · rcases hbc with h' | ⟨he', h2'⟩
      · exact Or.inl (he ▸ h')
      · exact Or.inr ⟨he.trans he', le_trans h2 h2'⟩

instance : IsTotal (Int × String × String) le3 where
  total a b := by
    rcases lt_trichotomy a.1 b.1 with h | h | h
    · exact Or.inl (Or.inl h)
    · rcases @IsTotal.total (String × String) le2 _ a.2 b.2 with h2 | h2
      · exact Or.inl (Or.inr ⟨h, h2⟩)
      · exact Or.inr (Or.inr ⟨h.symm, h2⟩)
    · exact Or.inr (Or.inl h)

instance : IsTrans (Int × String × String) le3 where
  trans a b c hab hbc := by
    rcases hab with h | ⟨he, h2⟩
    · rcases hbc with h' | ⟨he', _⟩
      · exact Or.inl (lt_trans h h')
      · exact Or.inl (he' ▸ h)
    · rcases hbc with h' | ⟨he', h2'⟩
      · exact Or.inl (he ▸ h')
      · exact Or.inr ⟨he.trans he', Trans.trans h2 h2'⟩

/-- The `(date, country_code, risk_type)` key of a raw row. -/
def key3 (r : RawRow) : Int × String × String :=
  (r.date, r.country_code, r.risk_type)

/-- The rows of `l` with key `k`. -/
def rows3 (l : List RawRow) (k : Int × String × String) : List RawRow :=
  l.filter (fun r => key3 r = k)

/-- Sorted duplicate-free key list of a raw-row table (pandas group keys). -/
def keys3 (l : List RawRow) : List (Int × String × String) :=
  List.insertionSort le3 (l.map key3).dedup

/-- One row of the daily-count table: `date`, `country_code`, `risk_type`,
`count`. -/
structure DailyRow where
  date : Int
  country_code : String
  risk_type : String
  count : Int
deriving DecidableEq, Repr

/-- `df.groupby(["date","country_code","risk_type"]).size()`, sorted by the
group key as pandas produces (and `sort_values` re-confirms). -/
def dailyCountsOf (rows : List RawRow) : List DailyRow :=
  (keys3 rows).map (fun k =>
    { date := k.1, country_code := k.2.1, risk_type := k.2.2,
      count := Int.ofNat (rows3 rows k).length })

/-- `graphml_to_daily_counts`: extract rows from the graph; raise (model:
return `Except.error`) when no valid row was extracted, otherwise the
aggregated daily-count table. -/
def graphml_to_daily_counts (g : Graph) : Except String (List DailyRow) :=
  let rows := extractRows g
  if rows = [] then Except.error "Event-Location-Risk rows empty"
  else Except.ok (dailyCountsOf rows)

-- ==== Spike detection (`detect_spikes`) ====

/-- The `(country_code, risk_type)` key of a daily-count row. -/
def key2 (r : DailyRow) : String × String :=
  (r.country_code, r.risk_type)

/-- The rows of `l` with key `k`. -/
def rows2 (l : List DailyRow) (k : String × String) : List DailyRow :=
  l.filter (fun r => key2 r = k)

/-- Sorted duplicate-free `(country_code, risk_type)` key list (pandas group keys). -/
def keys2 (l : List DailyRow) : List (String × String) :=
  List.insertionSort le2 (l.map key2).dedup

/-- Sum of the `count` column. -/
def sumCounts (l : List DailyRow) : Int :=
  (l.map DailyRow.count).sum

/-- Mean of the `count` column as an exact rational. -/
def meanCounts (l : List DailyRow) : ℚ :=
  (sumCounts l : ℚ) / (l.length : ℚ)

/-- `groupby(["country_code","risk_type"])["count"].sum()`. -/
def aggSum (l : List DailyRow) : List ((String × String) × Int) :=
  (keys2 l).map (fun k => (k, sumCounts (rows2 l k)))

/-- `groupby(["country_code","risk_type"])["count"].mean()`. -/
def aggMean (l : List DailyRow) : List ((String × String) × ℚ) :=
  (keys2 l).map (fun k => (k, meanCounts (rows2 l k)))

/-- `df_today`: the rows dated exactly `as_of`. -/
def dfTodayOf (df : List DailyRow) (asOf : Int) : List DailyRow :=
  df.filter (fun r => r.date = asOf)

/-- `df_base`: the rows in the primary baseline window
`[as_of - baseline_days, as_of - 1]`. -/
def dfBaseOf (df : List DailyRow) (asOf baselineDays : Int) : List DailyRow :=
  df.filter (fun r => asOf - baselineDays ≤ r.date ∧ r.date ≤ asOf - 1)

/-- `df_all_before`: the rows dated strictly before `as_of` (fallback source). -/
def dfBeforeOf (df : List DailyRow) (asOf : Int) : List DailyRow :=
  df.filter (fun r => r.date < asOf)

/-- Which computation produced a pair's baseline: the primary window mean, or
the full-history fallback mean (the code's `need_fallback` mask). -/
inductive BaselineSource where
  | primary : BaselineSource
  | fallback : BaselineSource
deriving DecidableEq, Repr

/-- The baseline joined to a `(country, risk)` key: the primary window mean
when the key has window rows (left merge with `agg_base`), otherwise the
full-history mean substituted by `fillna` (rows flagged by `need_fallback`),
otherwise none (dropped by `dropna`). -/
def baselineRecordOf (df : List DailyRow) (asOf baselineDays : Int)
    (k : String × String) : Option (ℚ × BaselineSource) :=
  match lookupKey (aggMean (dfBaseOf df asOf baselineDays)) k with
  | some b => some (b, BaselineSource.primary)
  | none =>
    match lookupKey (aggMean (dfBeforeOf df asOf)) k with
    | some b => some (b, BaselineSource.fallback)
    | none => none

/-- A row of `merged` after the baseline join and `dropna`. -/
structure JoinedRow where
  country_code : String
  risk_type : String
  today : Int
  baseline : ℚ
deriving DecidableEq, Repr

/-- `merged` after the left join of `agg_today` with the baselines, fallback
`fillna`, and `dropna(subset=["baseline"])`: today-pairs in sorted key order,
keeping exactly those with a defined baseline. -/
def joinedRows (df : List DailyRow) (asOf baselineDays : Int) : List JoinedRow :=
  (aggSum (dfTodayOf df asOf)).filterMap (fun kt =>
    (baselineRecordOf df asOf baselineDays kt.1).map (fun bs =>
      { country_code := kt.1.1, risk_type := kt.1.2, today := kt.2, baseline := bs.1 }))

/-- `merged[merged["baseline"] >= min_baseline_mean]`. -/
def joinedAfterMinBaseline (df : List DailyRow) (asOf baselineDays : Int)
    (minBaselineMean : ℚ) : List JoinedRow :=
  (joinedRows df asOf baselineDays).filter (fun r => minBaselineMean ≤ r.baseline)

/-- `delta_percent = (today - baseline) / baseline * 100.0`. -/
def deltaPercent (today : Int) (baseline : ℚ) : ℚ :=
  ((today : ℚ) - baseline) / baseline * 100

/-- One output spike record, with the inserted `as_of` column. -/
structure SpikeRow where
  as_of : Int
  country_code : String
  risk_type : String
  today : Int
  baseline : ℚ
  delta_percent : ℚ
deriving DecidableEq, Repr

/-- Materialise a joined row as an output record with its `delta_percent`. -/
def spikeRowOf (asOf : Int) (r : JoinedRow) : SpikeRow :=
  { as_of := asOf, country_code := r.country_code, risk_type := r.risk_type,
    today := r.today, baseline := r.baseline,
    delta_percent := deltaPercent r.today r.baseline }

/-- `merged[merged["delta_percent"].abs() >= min_delta_rel * 100.0]`. -/
def filteredSpikes (df : List DailyRow) (asOf baselineDays : Int)
    (minBaselineMean minDeltaRel : ℚ) : List SpikeRow :=
  ((joinedAfterMinBaseline df asOf baselineDays minBaselineMean).map (spikeRowOf asOf)).filter
    (fun s => minDeltaRel * 100 ≤ absQ s.delta_percent)

/-- Insert `x` into a list sorted by `delta_percent` descending, before the
first element whose delta is at most `x`'s. -/
def insDesc (x : SpikeRow) : List SpikeRow → List SpikeRow
  | [] => [x]
  | y :: ys =>
    if y.delta_percent ≤ x.delta_percent then x :: y :: ys
    else y :: insDesc x ys

/-- `merged.sort_values("delta_percent", ascending=False)`, modelled as an
insertion sort by `delta_percent` descending.  pandas' default
`kind='quicksort'` guarantees the key order but not the relative order of
rows with equal keys, so only order-insensitive consequences of this model
(membership, via `mem_sortDesc`) are used in the development. -/
def sortDesc : List SpikeRow → List SpikeRow
  | [] => []
  | x :: xs => insDesc x (sortDesc xs)

/-- `detect_spikes`: empty result when `as_of` has no rows, otherwise the
joined, threshold-filtered, delta-ranked spike records. -/
def detect_spikes (df : List DailyRow) (asOf baselineDays : Int)
    (minBaselineMean minDeltaRel : ℚ) : List SpikeRow :=
  if dfTodayOf df asOf = [] then []
  else sortDesc (filteredSpikes df asOf baselineDays minBaselineMean minDeltaRel)

-- ==== Derived keys, orders, and concrete instances ====

/-- The `(country_code, risk_type)` key of an output record. -/
def spikeKey (s : SpikeRow) : String × String :=
  (s.country_code, s.risk_type)

/-- The `(country_code, risk_type)` key of a joined row. -/
def joinedKey (r : JoinedRow) : String × String :=
  (r.country_code, r.risk_type)

/-- The ordered keyword buckets exactly as the code scans them, paired with
the category each bucket yields. -/
def themeBucketTable : List (List String × String) :=
  [(naturalKws, RISK_NATURAL_DISASTER), (militaryKws, RISK_MILITARY),
   (protestKws, RISK_CIVIL_UNREST), (terrorKws, RISK_MILITARY),
   (politicalKws, RISK_POLITICAL), (economicKws, RISK_ECONOMIC)]

/-- First-matching-bucket scan over an ordered bucket table (the spec's
match-first dispatch over keyword buckets). -/
def firstMatchingBucket (up : List (List Char)) : List (List String × String) → Option String
  | [] => none
  | (kws, cat) :: rest =>
    if contains_any kws up then some cat else firstMatchingBucket up rest

/-- Concrete table for the C6 scenario: pair AA has today −1 against baseline
2 (delta −150), pair BB has today 9 against baseline 5 (delta 80). -/
def exDfC6 : List DailyRow :=
  [{ date := 10, country_code := "AA", risk_type := "X", count := -1 },
   { date := 5, country_code := "AA", risk_type := "X", count := 2 },
   { date := 10, country_code := "BB", risk_type := "X", count := 9 },
   { date := 5, country_code := "BB", risk_type := "X", count := 5 }]

/-- Concrete table with a primary pair (AA, window counts 5, today 40) and a
fallback pair (BB, history only at date 0, today 9). -/
def exDf : List DailyRow :=
  [{ date := 3, country_code := "AA", risk_type := "MILITARY", count := 5 },
   { date := 4, country_code := "AA", risk_type := "MILITARY", count := 5 },
   { date := 5, country_code := "AA", risk_type := "MILITARY", count := 5 },
   { date := 6, country_code := "AA", risk_type := "MILITARY", count := 5 },
   { date := 7, country_code := "AA", risk_type := "MILITARY", count := 5 },
   { date := 8, country_code := "AA", risk_type := "MILITARY", count := 5 },
   { date := 9, country_code := "AA", risk_type := "MILITARY", count := 5 },
   { date := 10, country_code := "AA", risk_type := "MILITARY", count := 40 },
   { date := 0, country_code := "BB", risk_type := "X", count := 2 },
   { date := 10, country_code := "BB", risk_type := "X", count := 9 }]

/-- Concrete graph: one event with two locations and a theme, one event with a
single location and no usable attributes beyond its date. -/
def exGraph : Graph :=
  { nodes := [⟨"e1", [("type", "Event"), ("date", "20250110"), ("cameo", "14")]⟩,
              ⟨"l1", [("type", "Location"), ("country", "AA")]⟩,
              ⟨"l2", [("type", "Location"), ("country", "BB")]⟩,
              ⟨"th1", [("type", "Theme"), ("label", "PROTEST_X")]⟩,
              ⟨"e2", [("type", "Event"), ("date", "20250110")]⟩],
    edges := [("e1", "l1"), ("e1", "l2"), ("e1", "th1"), ("e2", "l1")] }

/-- The daily-count table extracted from `exGraph`. -/
def exTable : List DailyRow :=
  [{ date := 739261, country_code := "AA", risk_type := "CIVIL_UNREST", count := 1 },
   { date := 739261, country_code := "AA", risk_type := "OTHER", count := 1 },
   { date := 739261, country_code := "BB", risk_type := "CIVIL_UNREST", count := 1 }]

-- ==== Lemmas about sorted grouping ====

theorem absQ_eq_abs (q : ℚ) : absQ q = |q| := by
  unfold absQ
  split
  · rw [abs_of_neg (by assumption)]
  · rw [abs_of_nonneg (le_of_not_lt (by assumption))]

theorem lookupKey_map_self {κ β : Type} [DecidableEq κ] (K : List κ) (f : κ → β) (k : κ) :
    lookupKey (K.map fun x => (x, f x)) k = if k ∈ K then some (f k) else none := by
  induction K with
  | nil => simp [lookupKey]
  | cons a K ih =>
    simp only [List.map_cons, lookupKey]
    by_cases h : a = k
    · subst h; simp
    · rw [if_neg h, ih]
      by_cases hk : k ∈ K
      · rw [if_pos hk, if_pos (List.mem_cons_of_mem a hk)]
      · rw [if_neg hk, if_neg ?_]
        simp only [List.mem_cons, not_or]
        exact ⟨fun he => h he.symm, hk⟩

theorem mem_keys2 {l : List DailyRow} {k : String × String} :
    k ∈ keys2 l ↔ ∃ r ∈ l, key2 r = k := by
  unfold keys2
  rw [List.mem_insertionSort, List.mem_dedup, List.mem_map]

theorem rows2_ne_nil {l : List DailyRow} {k : String × String} :
    rows2 l k ≠ [] ↔ ∃ r ∈ l, key2 r = k := by
  unfold rows2
  rw [ne_eq, List.filter_eq_nil_iff]
  push_neg
  simp

theorem mem_keys2_iff_rows2 {l : List DailyRow} {k : String × String} :
    k ∈ keys2 l ↔ rows2 l k ≠ [] := by
  rw [mem_keys2, rows2_ne_nil]

theorem nodup_keys2 (l : List DailyRow) : (keys2 l).Nodup :=
  ((List.perm_insertionSort le2 (l.map key2).dedup).nodup_iff).mpr (List.nodup_dedup _)

theorem lookup_aggMean (l : List DailyRow) (k : String × String) :
    lookupKey (aggMean l) k =
      if rows2 l k = [] then none else some (meanCounts (rows2 l k)) := by
  unfold aggMean
  rw [lookupKey_map_self]
  by_cases h : rows2 l k = []
  · rw [if_pos h, if_neg (fun hm => (mem_keys2_iff_rows2.mp hm) h)]
  · rw [if_neg h, if_pos (mem_keys2_iff_rows2.mpr h)]

theorem mem_aggSum {l : List DailyRow} {k : String × String} {t : Int} :
    (k, t) ∈ aggSum l ↔ (rows2 l k ≠ [] ∧ t = sumCounts (rows2 l k)) := by
  unfold aggSum
  rw [List.mem_map]
  constructor
  · rintro ⟨k', hk', he⟩
    obtain ⟨he1, he2⟩ := Prod.mk.injEq .. ▸ he
    subst he1
    exact ⟨mem_keys2_iff_rows2.mp hk', he2.symm⟩
  · rintro ⟨hne, ht⟩
    exact ⟨k, mem_keys2_iff_rows2.mpr hne, by rw [ht]⟩

/-- Characterisation of the joined baseline: primary window mean when the key
has rows in the window, else the full-history mean, else undefined. -/
theorem baselineRecordOf_eq (df : List DailyRow) (asOf baselineDays : Int)
    (k : String × String) :
    baselineRecordOf df asOf baselineDays k =
      if rows2 (dfBaseOf df asOf baselineDays) k = [] then
        (if rows2 (dfBeforeOf df asOf) k = [] then none
         else some (meanCounts (rows2 (dfBeforeOf df asOf) k), BaselineSource.fallback))
      else some (meanCounts (rows2 (dfBaseOf df asOf baselineDays) k), BaselineSource.primary) := by
  unfold baselineRecordOf
  rw [lookup_aggMean, lookup_aggMean]
  by_cases h1 : rows2 (dfBaseOf df asOf baselineDays) k = []
  · rw [if_pos h1, if_pos h1]
    by_cases h2 : rows2 (dfBeforeOf df asOf) k = []
    · rw [if_pos h2, if_pos h2]
    · rw [if_neg h2, if_neg h2]
  · rw [if_neg h1, if_neg h1]

theorem mem_keys3 {l : List RawRow} {k : Int × String × String} :
    k ∈ keys3 l ↔ ∃ r ∈ l, key3 r = k := by
  unfold keys3
  rw [List.mem_insertionSort, List.mem_dedup, List.mem_map]

theorem rows3_ne_nil {l : List RawRow} {k : Int × String × String} :
    rows3 l k ≠ [] ↔ ∃ r ∈ l, key3 r = k := by
  unfold rows3
  rw [ne_eq, List.filter_eq_nil_iff]
  push_neg
  simp

theorem mem_keys3_iff_rows3 {l : List RawRow} {k : Int × String × String} :
    k ∈ keys3 l ↔ rows3 l k ≠ [] := by
  rw [mem_keys3, rows3_ne_nil]

theorem nodup_keys3 (l : List RawRow) : (keys3 l).Nodup :=
  ((List.perm_insertionSort le3 (l.map key3).dedup).nodup_iff).mpr (List.nodup_dedup _)

/-- Summing the sizes of the groups of a duplicate-free key list that covers
exactly the keys occurring in `l` recovers the length of `l`. -/
theorem sum_group_lengths {α κ : Type} [DecidableEq κ] (key : α → κ) :
    ∀ (K : List κ), K.Nodup → ∀ (l : List α),
      (∀ k, k ∈ K ↔ l.filter (fun a => key a = k) ≠ []) →
      (K.map (fun k => (l.filter (fun a => key a = k)).length)).sum = l.length := by
  intro K
  induction K with
  | nil =>
    intro _ l hcov
    cases l with
    | nil => simp
    | cons a l =>
      exfalso
      have : key a ∈ ([] : List κ) := by
        rw [hcov (key a)]
        intro hf
        have := List.filter_eq_nil_iff.mp hf a (List.mem_cons_self a l)
        simp at this
      simp at this
  | cons k0 K ih =>
    intro hnd l hcov
    have hk0K : k0 ∉ K := (List.nodup_cons.mp hnd).1
    have hndK : K.Nodup := (List.nodup_cons.mp hnd).2
    set l' := l.filter (fun a => !(decide (key a = k0))) with hl'
    have hsplit : l.length = (l.filter (fun a => key a = k0)).length + l'.length := by
      rw [hl']
      exact List.length_eq_length_filter_add (fun a => decide (key a = k0))
    have hfilter_eq : ∀ k, k ∈ K → l'.filter (fun a => key a = k) = l.filter (fun a => key a = k) := by
      intro k hk
      have hkne : k ≠ k0 := fun he => hk0K (he ▸ hk)
      rw [hl', List.filter_filter]
      apply List.filter_congr
      intro a _
      by_cases hka : key a = k
      · simp [hka, hkne]
      · simp [hka]
    have hcov' : ∀ k, k ∈ K ↔ l'.filter (fun a => key a = k) ≠ [] := by
      intro k
      constructor
      · intro hk
        rw [hfilter_eq k hk]
        exact (hcov k).mp (List.mem_cons_of_mem k0 hk)
      · intro hne
        obtain ⟨a, ha⟩ := List.exists_mem_of_ne_nil _ hne
        have ha1 : a ∈ l' := (List.mem_filter.mp ha).1
        have hak : key a = k := by
          have := (List.mem_filter.mp ha).2
          simpa using this
        have hal : a ∈ l := (List.mem_filter.mp ha1).1
        have hak0 : ¬(key a = k0) := by
          have := (List.mem_filter.mp ha1).2
          simpa using this
        have hkK : k ∈ k0 :: K := by
          rw [hcov k]
          intro hf
          have := List.filter_eq_nil_iff.mp hf a hal
          simp [hak] at this
        rcases List.mem_cons.mp hkK with he | hm
        · exact absurd (he ▸ hak) hak0
        · exact hm
    have hsum' : (K.map (fun k => (l.filter (fun a => key a = k)).length)).sum
        = (K.map (fun k => (l'.filter (fun a => key a = k)).length)).sum := by
      apply congrArg
      apply List.map_congr_left
      intro k hk
      rw [hfilter_eq k hk]
    rw [List.map_cons, List.sum_cons, hsum', ih hndK l' hcov', hsplit]

theorem sum_map_intOfNat {α : Type} (l : List α) (f : α → Nat) :
    (l.map (fun a => Int.ofNat (f a))).sum = Int.ofNat ((l.map f).sum) := by
  induction l with
  | nil => simp
  | cons a l ih =>
    rw [List.map_cons, List.sum_cons, List.map_cons, List.sum_cons, ih]
    exact (Int.ofNat_add _ _).symm

/-- Column-sum of the aggregated table restricted to one date equals the
number of raw extracted rows carrying that date. -/
theorem sumCounts_dailyCountsOf_filter (rows : List RawRow) (d : Int) :
    sumCounts ((dailyCountsOf rows).filter (fun r => r.date = d)) =
      Int.ofNat ((rows.filter (fun r => r.date = d)).length) := by
  unfold dailyCountsOf
  rw [List.filter_map]
  have hcomp : List.filter
      ((fun (r : DailyRow) => decide (r.date = d)) ∘ fun k =>
        ({ date := k.1, country_code := k.2.1, risk_type := k.2.2,
           count := Int.ofNat (rows3 rows k).length } : DailyRow)) (keys3 rows)
      = List.filter (fun k => decide (k.1 = d)) (keys3 rows) :=
    List.filter_congr (fun a _ => rfl)
  rw [hcomp]
  set K := List.filter (fun k => decide (k.1 = d)) (keys3 rows) with hK
  have hmemK : ∀ k, k ∈ K ↔ (rows3 rows k ≠ [] ∧ k.1 = d) := by
    intro k
    rw [hK, List.mem_filter, mem_keys3_iff_rows3]
    simp
  unfold sumCounts
  rw [List.map_map]
  have hcnt : List.map (DailyRow.count ∘ fun k =>
      ({ date := k.1, country_code := k.2.1, risk_type := k.2.2,
         count := Int.ofNat (rows3 rows k).length } : DailyRow)) K
      = List.map (fun k => Int.ofNat (rows3 rows k).length) K :=
    List.map_congr_left (fun a _ => rfl)
  rw [hcnt, sum_map_intOfNat]
  congr 1
  have hrows : ∀ k, k ∈ K →
      (rows3 rows k).length
        = ((rows.filter (fun r => r.date = d)).filter (fun a => key3 a = k)).length := by
    intro k hk
    have hkd : k.1 = d := ((hmemK k).mp hk).2
    unfold rows3
    rw [List.filter_filter]
    congr 1
    apply List.filter_congr
    intro a _
    by_cases hka : key3 a = k
    · have : a.date = d := by
        rw [← hkd]
        exact congrArg Prod.fst hka
      simp [hka, this]
    · simp [hka]
  rw [List.map_congr_left hrows]
  apply sum_group_lengths key3 K (List.Nodup.filter _ (nodup_keys3 rows))
  intro k
  rw [hmemK k]
  constructor
  · rintro ⟨hne, hkd⟩
    rw [ne_eq, List.filter_eq_nil_iff]
    push_neg
    obtain ⟨a, ha, hak⟩ := rows3_ne_nil.mp hne
    refine ⟨a, List.mem_filter.mpr ⟨ha, ?_⟩, by simp [hak]⟩
    have : a.date = d := by
      rw [← hkd]
      exact congrArg Prod.fst hak
    simp [this]
  · intro hne
    rw [ne_eq, List.filter_eq_nil_iff] at hne
    push_neg at hne
    obtain ⟨a, ha, hak⟩ := hne
    have ha1 : a ∈ rows := (List.mem_filter.mp ha).1
    have had : a.date = d := by
      have := (List.mem_filter.mp ha).2
      simpa using this
    have hak' : key3 a = k := by simpa using hak
    refine ⟨rows3_ne_nil.mpr ⟨a, ha1, hak'⟩, ?_⟩
    rw [← hak']
    exact had

-- ==== Lemmas about the ranking sort ====

theorem mem_insDesc {x a : SpikeRow} {l : List SpikeRow} :
    a ∈ insDesc x l ↔ a = x ∨ a ∈ l := by
  induction l with
  | nil => simp [insDesc]
  | cons y ys ih =>
    unfold insDesc
    split
    · simp [List.mem_cons]
    · simp only [List.mem_cons, ih]
      tauto

theorem mem_sortDesc {a : SpikeRow} {l : List SpikeRow} :
    a ∈ sortDesc l ↔ a ∈ l := by
  induction l with
  | nil => simp [sortDesc]
  | cons x xs ih =>
    unfold sortDesc
    rw [mem_insDesc, List.mem_cons, ih]

-- ==== Membership characterisation of the pipeline ====

theorem mem_joinedRows {df : List DailyRow} {asOf baselineDays : Int} {j : JoinedRow} :
    j ∈ joinedRows df asOf baselineDays ↔
      ∃ b src, rows2 (dfTodayOf df asOf) (joinedKey j) ≠ [] ∧
        j.today = sumCounts (rows2 (dfTodayOf df asOf) (joinedKey j)) ∧
        baselineRecordOf df asOf baselineDays (joinedKey j) = some (b, src) ∧
        j.baseline = b := by
  unfold joinedRows
  rw [List.mem_filterMap]
  constructor
  · rintro ⟨kt, hkt, hmap⟩
    rw [Option.map_eq_some'] at hmap
    obtain ⟨bs, hbs, hj⟩ := hmap
    have hkey : joinedKey j = kt.1 := by
      rw [← hj]
      unfold joinedKey
      exact Prod.mk.eta
    have hagg := mem_aggSum.mp (by rw [← @Prod.mk.eta _ _ kt] at hkt; exact hkt)
    refine ⟨bs.1, bs.2, ?_, ?_, ?_, ?_⟩
    · rw [hkey]; exact hagg.1
    · rw [hkey, ← hj]; exact hagg.2
    · rw [hkey, Prod.mk.eta]; exact hbs
    · rw [← hj]
  · rintro ⟨b, src, hne, ht, hrec, hb⟩
    refine ⟨(joinedKey j, j.today), ?_, ?_⟩
    · exact mem_aggSum.mpr ⟨hne, ht⟩
    · rw [hrec, Option.map_some']
      obtain ⟨jc, jr, jt, jb⟩ := j
      simp only [joinedKey] at *
      rw [hb]

theorem mem_detect_spikes {df : List DailyRow} {asOf baselineDays : Int}
    {minBaselineMean minDeltaRel : ℚ} {s : SpikeRow} :
    s ∈ detect_spikes df asOf baselineDays minBaselineMean minDeltaRel ↔
      dfTodayOf df asOf ≠ [] ∧
      ∃ src, rows2 (dfTodayOf df asOf) (spikeKey s) ≠ [] ∧
        s.as_of = asOf ∧
        s.today = sumCounts (rows2 (dfTodayOf df asOf) (spikeKey s)) ∧
        baselineRecordOf df asOf baselineDays (spikeKey s) = some (s.baseline, src) ∧
        minBaselineMean ≤ s.baseline ∧
        s.delta_percent = deltaPercent s.today s.baseline ∧
        minDeltaRel * 100 ≤ absQ s.delta_percent := by
  unfold detect_spikes
  split
  · rename_i hempty
    simp only [List.not_mem_nil, false_iff, not_and]
    intro hne
    exact absurd hempty hne
  · rename_i hne
    rw [mem_sortDesc]
    unfold filteredSpikes
    rw [List.mem_filter, List.mem_map]
    constructor
    · rintro ⟨⟨j, hj, hsp⟩, hdelta⟩
      unfold joinedAfterMinBaseline at hj
      rw [List.mem_filter] at hj
      obtain ⟨hjr, hjb⟩ := hj
      obtain ⟨b, src, hkne, ht, hrec, hb⟩ := mem_joinedRows.mp hjr
      have hkey : spikeKey s = joinedKey j := by rw [← hsp]; rfl
      refine ⟨hne, src, ?_, ?_, ?_, ?_, ?_, ?_, ?_⟩
      · rw [hkey]; exact hkne
      · rw [← hsp]; rfl
      · rw [hkey, ← hsp]; exact ht
      · rw [hkey, ← hsp]
        simp only [spikeRowOf]
        rw [hb]; exact hrec
      · rw [← hsp]
        simp only [spikeRowOf]
        rw [hb]
        rw [hb] at hjb
        simpa using hjb
      · rw [← hsp]; rfl
      · simpa using hdelta
    · rintro ⟨-, src, hkne, hasof, ht, hrec, hmbm, hdp, hdelta⟩
      obtain ⟨sa, sc, sr, st, sb, sd⟩ := s
      simp only [spikeKey] at hkne ht hrec
      simp only at hasof hmbm hdp hdelta
      refine ⟨⟨⟨sc, sr, st, sb⟩, ?_, ?_⟩, by simpa using hdelta⟩
      · unfold joinedAfterMinBaseline
        rw [List.mem_filter]
        refine ⟨mem_joinedRows.mpr ⟨sb, src, ?_, ?_, ?_, rfl⟩, by simpa using hmbm⟩
        · exact hkne
        · exact ht
        · exact hrec
      · simp only [spikeRowOf]
        rw [hasof, hdp]

-- ==== Lemmas about Python strip and the CAMEO parse ====

theorem isWhitespace_false_of_isDigit {c : Char} (h : c.isDigit = true) :
    c.isWhitespace = false := by
  have hd : ('0' ≤ c ∧ c ≤ '9') := by
    unfold Char.isDigit at h
    simpa only [Bool.and_eq_true, decide_eq_true_eq] using h
  by_contra hws
  simp only [Bool.not_eq_false] at hws
  have hor : ((c = ' ' ∨ c = '\t') ∨ c = '\x0d') ∨ c = '\n' := by
    have hws' : (c = ' ' || c = '\t' || c = '\r' || c = '\n') = true := hws
    simpa [Bool.or_eq_true, decide_eq_true_eq] using hws'
  rcases hor with ((h' | h') | h') | h' <;> subst h' <;> exact absurd hd.1 (by decide)

theorem stripTail_cons_of_not_ws {a : Char} (l : List Char) (ha : a.isWhitespace = false) :
    stripTail (a :: l) = a :: stripTail l := by
  unfold stripTail
  rw [List.reverse_cons, List.dropWhile_append]
  by_cases he : (l.reverse.dropWhile Char.isWhitespace).isEmpty = true
  · rw [if_pos he]
    rw [List.isEmpty_iff] at he
    rw [he, List.dropWhile_cons, ha]
    simp
  · rw [if_neg he, List.reverse_append]
    simp

theorem pyStrip_digit_digit {d1 d2 : Char} (t : List Char)
    (h1 : d1.isDigit = true) (h2 : d2.isDigit = true) :
    pyStrip (d1 :: d2 :: t) = d1 :: d2 :: stripTail t := by
  unfold pyStrip
  rw [List.dropWhile_cons, isWhitespace_false_of_isDigit h1]
  simp only [Bool.false_eq_true, if_false]
  rw [stripTail_cons_of_not_ws _ (isWhitespace_false_of_isDigit h1),
    stripTail_cons_of_not_ws _ (isWhitespace_false_of_isDigit h2)]

-- ==== Lemmas about counts and means ====

theorem length_le_sumCounts {l : List DailyRow} (h : ∀ r ∈ l, (1 : Int) ≤ r.count) :
    (l.length : Int) ≤ sumCounts l := by
  induction l with
  | nil => simp [sumCounts]
  | cons a l ih =>
    have ha := h a (List.mem_cons_self a l)
    have hl := ih (fun r hr => h r (List.mem_cons_of_mem a hr))
    unfold sumCounts at *
    simp only [List.map_cons, List.sum_cons, List.length_cons]
    push_cast
    omega

theorem one_le_meanCounts {l : List DailyRow} (hne : l ≠ [])
    (h : ∀ r ∈ l, (1 : Int) ≤ r.count) : (1 : ℚ) ≤ meanCounts l := by
  unfold meanCounts
  have hlen : 0 < (l.length : ℚ) := by
    have : 0 < l.length := List.length_pos.mpr hne
    exact_mod_cast this
  rw [one_le_div hlen]
  have := length_le_sumCounts h
  exact_mod_cast this

theorem zero_le_sumCounts {l : List DailyRow} (h : ∀ r ∈ l, (1 : Int) ≤ r.count) :
    (0 : Int) ≤ sumCounts l :=
  le_trans (by exact_mod_cast Nat.zero_le l.length) (length_le_sumCounts h)

-- ==== Case lemmas for the classifiers ====

/-- Let-free unfolding of `classify_by_cameo`. -/
theorem classify_by_cameo_eq (c : String) :
    classify_by_cameo c =
      if c.data = [] then none
      else if isDigits ((pyStrip c.data).take 2) then
        (if toNatDigits ((pyStrip c.data).take 2) ∈ [18, 19, 20, 15, 17] then some RISK_MILITARY
         else if toNatDigits ((pyStrip c.data).take 2) = 14 then some RISK_CIVIL_UNREST
         else if toNatDigits ((pyStrip c.data).take 2) ∈ [10, 11, 12, 13, 16] then some RISK_POLITICAL
         else if toNatDigits ((pyStrip c.data).take 2) ∈ [6, 7] then some RISK_ECONOMIC
         else none)
      else none := rfl

/-- Let-free unfolding of `classify_by_theme_labels`. -/
theorem classify_by_theme_labels_eq (labels : List String) :
    classify_by_theme_labels labels =
      if labels.isEmpty then none
      else if contains_any naturalKws (upperLabels labels) then some RISK_NATURAL_DISASTER
      else if contains_any militaryKws (upperLabels labels) then some RISK_MILITARY
      else if contains_any protestKws (upperLabels labels) then some RISK_CIVIL_UNREST
      else if contains_any terrorKws (upperLabels labels) then some RISK_MILITARY
      else if contains_any politicalKws (upperLabels labels) then some RISK_POLITICAL
      else if contains_any economicKws (upperLabels labels) then some RISK_ECONOMIC
      else none := rfl

theorem classify_by_cameo_mem {c : String} {r : String}
    (h : classify_by_cameo c = some r) :
    r = RISK_MILITARY ∨ r = RISK_CIVIL_UNREST ∨ r = RISK_POLITICAL ∨ r = RISK_ECONOMIC := by
  rw [classify_by_cameo_eq] at h
  split_ifs at h <;> simp_all

theorem classify_by_theme_labels_mem {labels : List String} {r : String}
    (h : classify_by_theme_labels labels = some r) :
    r = RISK_NATURAL_DISASTER ∨ r = RISK_MILITARY ∨ r = RISK_CIVIL_UNREST ∨
      r = RISK_POLITICAL ∨ r = RISK_ECONOMIC := by
  rw [classify_by_theme_labels_eq] at h
  split_ifs at h <;> simp_all

theorem classify_event_risk_total (cam : Option String) (labels : List String) :
    classify_event_risk cam labels ∈
      [RISK_MILITARY, RISK_CIVIL_UNREST, RISK_POLITICAL, RISK_ECONOMIC,
       RISK_NATURAL_DISASTER, RISK_OTHER] := by
  unfold classify_event_risk
  cases hcp : cameoPhase cam with
  | some r =>
    have hr : r = RISK_MILITARY ∨ r = RISK_CIVIL_UNREST ∨ r = RISK_POLITICAL ∨ r = RISK_ECONOMIC := by
      cases cam with
      | none => exact absurd hcp (by simp [cameoPhase])
      | some c =>
        simp only [cameoPhase] at hcp
        by_cases hd : c.data = []
        · rw [if_pos hd] at hcp
          exact absurd hcp (by simp)
        · rw [if_neg hd] at hcp
          exact classify_by_cameo_mem hcp
    simp only [List.mem_cons]
    tauto
  | none =>
    cases hth : (if labels.isEmpty then none else classify_by_theme_labels labels) with
    | some r =>
      have hr := @classify_by_theme_labels_mem labels r
      have hr' : classify_by_theme_labels labels = some r := by
        by_cases he : labels.isEmpty
        · rw [if_pos he] at hth
          exact absurd hth (by simp)
        · rw [if_neg he] at hth
          exact hth
      have := hr hr'
      simp only [List.mem_cons]
      tauto
    | none =>
      simp only [List.mem_cons]
      tauto

/-- The primary window is part of the full pre-`as_of` history: a key with no
history rows has no window rows either. -/
theorem rows2_dfBase_eq_nil_of_before {df : List DailyRow} {asOf : Int}
    (baselineDays : Int) {k : String × String}
    (hbe : rows2 (dfBeforeOf df asOf) k = []) :
    rows2 (dfBaseOf df asOf baselineDays) k = [] := by
  unfold rows2 at *
  rw [List.filter_eq_nil_iff] at *
  intro a ha
  have hadf : a ∈ df := (List.mem_filter.mp ha).1
  have hdate : asOf - baselineDays ≤ a.date ∧ a.date ≤ asOf - 1 := by
    have := (List.mem_filter.mp ha).2
    simpa using this
  apply hbe a
  have hlt : a.date < asOf := by omega
  exact List.mem_filter.mpr ⟨hadf, by simpa using hlt⟩

-- ==== Claim theorems ====

/-- C2: for every pair with a non-zero count on `as_of`, the baseline comes
from the fallback computation (source `fallback`) exactly when the pair has
zero rows in the window `[as_of - baseline_days, as_of - 1]` but at least one
row strictly before `as_of`; pairs served by the primary window are tagged
`primary`. -/
theorem C2_fallback_trigger (df : List DailyRow) (asOf baselineDays : Int)
    (k : String × String) (h : sumCounts (rows2 (dfTodayOf df asOf) k) ≠ 0) :
    ((∃ b, baselineRecordOf df asOf baselineDays k = some (b, BaselineSource.fallback)) ↔
      (rows2 (dfBaseOf df asOf baselineDays) k = [] ∧ rows2 (dfBeforeOf df asOf) k ≠ [])) ∧
    ((∃ b, baselineRecordOf df asOf baselineDays k = some (b, BaselineSource.primary)) ↔
      rows2 (dfBaseOf df asOf baselineDays) k ≠ []) := by
  by_cases h1 : rows2 (dfBaseOf df asOf baselineDays) k = [] <;>
    by_cases h2 : rows2 (dfBeforeOf df asOf) k = [] <;>
      simp [baselineRecordOf_eq, h1, h2]

/-- C5: for each pair with rows dated `as_of`, the primary baseline is the
mean of the pair's counts over its rows in the window; a pair with no window
row receives the mean over all rows strictly before `as_of`; a pair with no
row before `as_of` never reaches the output at all. -/
theorem C5_baseline_and_fallback_means (df : List DailyRow) (asOf baselineDays : Int)
    (k : String × String) (h : rows2 (dfTodayOf df asOf) k ≠ []) :
    (rows2 (dfBaseOf df asOf baselineDays) k ≠ [] →
      baselineRecordOf df asOf baselineDays k =
        some (meanCounts (rows2 (dfBaseOf df asOf baselineDays) k), BaselineSource.primary)) ∧
    (rows2 (dfBaseOf df asOf baselineDays) k = [] → rows2 (dfBeforeOf df asOf) k ≠ [] →
      baselineRecordOf df asOf baselineDays k =
        some (meanCounts (rows2 (dfBeforeOf df asOf) k), BaselineSource.fallback)) ∧
    (rows2 (dfBeforeOf df asOf) k = [] →
      ∀ minBaselineMean minDeltaRel : ℚ,
        ∀ s ∈ detect_spikes df asOf baselineDays minBaselineMean minDeltaRel,
          spikeKey s ≠ k) := by
  refine ⟨?_, ?_, ?_⟩
  · intro h1
    rw [baselineRecordOf_eq, if_neg h1]
  · intro h1 h2
    rw [baselineRecordOf_eq, if_pos h1, if_neg h2]
  · intro hbe minBaselineMean minDeltaRel s hs hk
    obtain ⟨-, src, -, -, -, hrec, -⟩ := mem_detect_spikes.mp hs
    rw [hk, baselineRecordOf_eq, if_pos (rows2_dfBase_eq_nil_of_before baselineDays hbe),
      if_pos hbe] at hrec
    exact Option.noConfusion hrec

/-- C3 counterexample: the theme labels `["TERROR", "PROTEST"]` match both a
terror keyword and a protest keyword, yet the classifier returns
`CIVIL_UNREST`, not `MILITARY`, because the protest bucket is scanned before
the terror bucket. -/
theorem C3_terror_protest_counterexample :
    classify_event_risk none ["TERROR", "PROTEST"] = RISK_CIVIL_UNREST ∧
    RISK_CIVIL_UNREST ≠ RISK_MILITARY ∧
    contains_any terrorKws (upperLabels ["TERROR", "PROTEST"]) = true ∧
    contains_any protestKws (upperLabels ["TERROR", "PROTEST"]) = true := by decide

/-- C3 (amended): when the action code yields no mapping, classification scans
the theme labels against the fixed keyword buckets in the order
natural-disaster, military/conflict, protest/unrest, terror, political,
economic, returning the first matching bucket's category (`OTHER` when none
matches); in particular labels matching both a terror keyword and a protest
keyword classify as `CIVIL_UNREST`. -/
theorem C3_theme_precedence :
    (∀ labels : List String,
      classify_by_theme_labels labels =
        if labels.isEmpty then none
        else firstMatchingBucket (upperLabels labels) themeBucketTable) ∧
    (∀ labels : List String,
      classify_event_risk none labels =
        match classify_by_theme_labels labels with
        | some r => r
        | none => RISK_OTHER) ∧
    classify_event_risk none ["TERROR", "PROTEST"] = RISK_CIVIL_UNREST := by
  refine ⟨?_, ?_, by decide⟩
  · intro labels
    rfl
  · intro labels
    cases labels with
    | nil => rfl
    | cons a l => rfl

/-- Reduction of `classify_by_cameo` on a code whose first two characters are
digits: the stripped two-character root decides the category. -/
theorem classify_by_cameo_of_digits {c : String} {d1 d2 : Char} {t : List Char}
    (hdata : c.data = d1 :: d2 :: t) (h1 : d1.isDigit = true) (h2 : d2.isDigit = true) :
    classify_by_cameo c =
      (if toNatDigits [d1, d2] ∈ [18, 19, 20, 15, 17] then some RISK_MILITARY
       else if toNatDigits [d1, d2] = 14 then some RISK_CIVIL_UNREST
       else if toNatDigits [d1, d2] ∈ [10, 11, 12, 13, 16] then some RISK_POLITICAL
       else if toNatDigits [d1, d2] ∈ [6, 7] then some RISK_ECONOMIC
       else none) := by
  rw [classify_by_cameo_eq, hdata]
  rw [if_neg (by simp)]
  rw [pyStrip_digit_digit t h1 h2]
  have htake : (d1 :: d2 :: stripTail t).take 2 = [d1, d2] := rfl
  rw [htake, if_pos (by simp [isDigits, h1, h2])]

theorem classify_event_risk_of_cameoPhase_some {cam : Option String}
    {labels : List String} {r : String} (h : cameoPhase cam = some r) :
    classify_event_risk cam labels = r := by
  unfold classify_event_risk
  rw [h]

theorem classify_event_risk_of_cameoPhase_none {cam : Option String}
    {labels : List String} (h : cameoPhase cam = none) :
    classify_event_risk cam labels = classify_event_risk none labels := by
  unfold classify_event_risk
  rw [h]
  rfl

/-- C4: `classify_event_risk` always yields one of the six categories; when
the action code's first two characters are digits, the root maps 15/17/18/19/20
to MILITARY, 14 to CIVIL_UNREST, 10/11/12/13/16 to POLITICAL, 6/7 to ECONOMIC,
regardless of the theme labels; unmapped roots fall through to theme
classification, and when nothing matches the result is OTHER. -/
theorem C4_cameo_mapping (c : String) (d1 d2 : Char) (t : List Char) (labels : List String)
    (hdata : c.data = d1 :: d2 :: t) (h1 : d1.isDigit = true) (h2 : d2.isDigit = true) :
    (∀ (cam : Option String) (labs : List String),
      classify_event_risk cam labs ∈
        [RISK_MILITARY, RISK_CIVIL_UNREST, RISK_POLITICAL, RISK_ECONOMIC,
         RISK_NATURAL_DISASTER, RISK_OTHER]) ∧
    (toNatDigits [d1, d2] ∈ [15, 17, 18, 19, 20] →
      classify_event_risk (some c) labels = RISK_MILITARY) ∧
    (toNatDigits [d1, d2] = 14 → classify_event_risk (some c) labels = RISK_CIVIL_UNREST) ∧
    (toNatDigits [d1, d2] ∈ [10, 11, 12, 13, 16] →
      classify_event_risk (some c) labels = RISK_POLITICAL) ∧
    (toNatDigits [d1, d2] ∈ [6, 7] → classify_event_risk (some c) labels = RISK_ECONOMIC) ∧
    (toNatDigits [d1, d2] ∉ [6, 7, 10, 11, 12, 13, 14, 15, 16, 17, 18, 19, 20] →
      classify_event_risk (some c) labels = classify_event_risk none labels) ∧
    (∀ (cam : Option String) (labs : List String),
      cameoPhase cam = none → classify_by_theme_labels labs = none →
      classify_event_risk cam labs = RISK_OTHER) := by
  have hphase : cameoPhase (some c) = classify_by_cameo c := by
    simp only [cameoPhase]
    rw [if_neg (by rw [hdata]; simp)]
  have hred := classify_by_cameo_of_digits hdata h1 h2
  refine ⟨classify_event_risk_total, ?_, ?_, ?_, ?_, ?_, ?_⟩
  · intro hmem
    simp only [List.mem_cons, List.not_mem_nil, or_false] at hmem
    apply classify_event_risk_of_cameoPhase_some
    rw [hphase, hred]
    rcases hmem with h | h | h | h | h <;> rw [h] <;> decide
  · intro hmem
    apply classify_event_risk_of_cameoPhase_some
    rw [hphase, hred, hmem]
    decide
  · intro hmem
    simp only [List.mem_cons, List.not_mem_nil, or_false] at hmem
    apply classify_event_risk_of_cameoPhase_some
    rw [hphase, hred]
    rcases hmem with h | h | h | h | h <;> rw [h] <;> decide
  · intro hmem
    simp only [List.mem_cons, List.not_mem_nil, or_false] at hmem
    apply classify_event_risk_of_cameoPhase_some
    rw [hphase, hred]
    rcases hmem with h | h <;> rw [h] <;> decide
  · intro hnm
    simp only [List.mem_cons, List.not_mem_nil, or_false, not_or] at hnm
    apply classify_event_risk_of_cameoPhase_none
    rw [hphase, hred]
    split_ifs with ha hb hc hd
    · simp only [List.mem_cons, List.not_mem_nil, or_false] at ha
      omega
    · omega
    · simp only [List.mem_cons, List.not_mem_nil, or_false] at hc
      omega
    · simp only [List.mem_cons, List.not_mem_nil, or_false] at hd
      omega
    · rfl
  · intro cam labs hc hth
    unfold classify_event_risk
    rw [hc]
    cases labs with
    | nil => rfl
    | cons a l =>
      rw [if_neg (by simp), hth]

/-- A successful aggregation determines the table and a nonempty row list. -/
theorem ok_dailyCounts {g : Graph} {t : List DailyRow}
    (h : graphml_to_daily_counts g = Except.ok t) :
    t = dailyCountsOf (extractRows g) ∧ extractRows g ≠ [] := by
  unfold graphml_to_daily_counts at h
  by_cases he : extractRows g = []
  · rw [if_pos he] at h
    exact absurd h (by simp)
  · rw [if_neg he] at h
    cases h
    exact ⟨rfl, he⟩

/-- C6: after the minimum-baseline filter, a joined row reaches the output
exactly when the absolute value of its delta percent is at least
`min_delta_rel * 100`; concretely, with `min_delta_rel = 1` the pair with
delta 80 is dropped while the pair with delta −150 is kept. -/
theorem C6_delta_threshold :
    (∀ (df : List DailyRow) (asOf baselineDays : Int) (minBaselineMean minDeltaRel : ℚ)
       (j : JoinedRow), j ∈ joinedAfterMinBaseline df asOf baselineDays minBaselineMean →
      (spikeRowOf asOf j ∈ detect_spikes df asOf baselineDays minBaselineMean minDeltaRel ↔
        minDeltaRel * 100 ≤ |deltaPercent j.today j.baseline|)) ∧
    detect_spikes exDfC6 10 7 1 1 =
      [{ as_of := 10, country_code := "AA", risk_type := "X", today := -1, baseline := 2,
         delta_percent := -150 }] := by
  constructor
  · intro df asOf baselineDays minBaselineMean minDeltaRel j hj
    constructor
    · intro hs
      obtain ⟨-, src, -, -, -, -, -, -, hdelta⟩ := mem_detect_spikes.mp hs
      rw [absQ_eq_abs] at hdelta
      exact hdelta
    · intro hd
      have hjr : j ∈ joinedRows df asOf baselineDays := by
        unfold joinedAfterMinBaseline at hj
        exact List.mem_of_mem_filter hj
      obtain ⟨b, src, hkne, -, -, -⟩ := mem_joinedRows.mp hjr
      have hne : dfTodayOf df asOf ≠ [] := by
        intro he
        apply hkne
        unfold rows2
        rw [he]
        rfl
      unfold detect_spikes
      rw [if_neg hne, mem_sortDesc]
      unfold filteredSpikes
      rw [List.mem_filter]
      refine ⟨List.mem_map_of_mem _ hj, ?_⟩
      have : minDeltaRel * 100 ≤ absQ (spikeRowOf asOf j).delta_percent := by
        rw [absQ_eq_abs]
        exact hd
      simpa using this
  · with_unfolding_all decide

/-- C7: aggregation fails exactly when zero valid rows are extracted from the
graph; `detect_spikes` yields an empty record list, without failing, when no
rows are dated `as_of` or when no pair survives the threshold filters. -/
theorem C7_failure_modes (g : Graph) (df : List DailyRow) (asOf baselineDays : Int)
    (minBaselineMean minDeltaRel : ℚ) :
    ((∃ e, graphml_to_daily_counts g = Except.error e) ↔ extractRows g = []) ∧
    (dfTodayOf df asOf = [] →
      detect_spikes df asOf baselineDays minBaselineMean minDeltaRel = []) ∧
    (filteredSpikes df asOf baselineDays minBaselineMean minDeltaRel = [] →
      detect_spikes df asOf baselineDays minBaselineMean minDeltaRel = []) := by
  refine ⟨?_, ?_, ?_⟩
  · unfold graphml_to_daily_counts
    by_cases h : extractRows g = []
    · simp [h]
    · simp [h]
  · intro h
    unfold detect_spikes
    rw [if_pos h]
  · intro h
    unfold detect_spikes
    split
    · rfl
    · rw [h]
      rfl

/-- C8: on any daily-count table whose rows all carry a count of at least one
(the invariant of aggregated tables) and for every threshold configuration,
every output record has a strictly positive baseline and a non-negative today
count. -/
theorem C8_output_safety (df : List DailyRow) (asOf baselineDays : Int)
    (minBaselineMean minDeltaRel : ℚ) (hpos : ∀ r ∈ df, (1 : Int) ≤ r.count) :
    ∀ s ∈ detect_spikes df asOf baselineDays minBaselineMean minDeltaRel,
      0 < s.baseline ∧ 0 ≤ s.today := by
  intro s hs
  obtain ⟨-, src, hkne, -, ht, hrec, -, -, -⟩ := mem_detect_spikes.mp hs
  constructor
  · rw [baselineRecordOf_eq] at hrec
    split_ifs at hrec with hw hb
    · rw [Option.some.injEq, Prod.mk.injEq] at hrec
      rw [← hrec.1]
      have := one_le_meanCounts hb (fun r hr =>
        hpos r (List.mem_filter.mp (List.mem_filter.mp hr).1).1)
      linarith
    · rw [Option.some.injEq, Prod.mk.injEq] at hrec
      rw [← hrec.1]
      have := one_le_meanCounts hw (fun r hr =>
        hpos r (List.mem_filter.mp (List.mem_filter.mp hr).1).1)
      linarith
  · rw [ht]
    apply zero_le_sumCounts
    intro r hr
    exact hpos r (List.mem_filter.mp (List.mem_filter.mp hr).1).1

/-- C9: the total count over all rows of a given date equals the number of
extracted (event, country) pairs for that date; each event contributes one
row per distinct resolved country, all under the event's single risk
category. -/
theorem C9_counting_invariant (g : Graph) (t : List DailyRow)
    (h : graphml_to_daily_counts g = Except.ok t) :
    (∀ d : Int, sumCounts (t.filter (fun r => r.date = d)) =
      Int.ofNat (((extractRows g).filter (fun r => r.date = d)).length)) ∧
    (∀ nid : String, (countriesOf g nid).Nodup) ∧
    (∀ n ∈ g.nodes, eventRowsOf g n = [] ∨
      ((eventRowsOf g n).map RawRow.country_code = countriesOf g n.nid ∧
        ∀ r ∈ eventRowsOf g n,
          r.risk_type = classify_event_risk (getAttr n "cameo") (themesOf g n.nid))) := by
  obtain ⟨ht, -⟩ := ok_dailyCounts h
  refine ⟨?_, ?_, ?_⟩
  · intro d
    rw [ht]
    exact sumCounts_dailyCountsOf_filter _ d
  · intro nid
    unfold countriesOf
    exact List.nodup_dedup _
  · intro n hn
    unfold eventRowsOf
    split
    · split
      · exact Or.inl rfl
      · split
        · exact Or.inl rfl
        · split
          · exact Or.inl rfl
          · split
            · exact Or.inl rfl
            · refine Or.inr ⟨?_, ?_⟩
              · rw [List.map_map]
                exact (List.map_congr_left (fun a _ => rfl)).trans (List.map_id _)
              · intro r hr
                obtain ⟨cc, -, he⟩ := List.mem_map.mp hr
                rw [← he]
    · exact Or.inl rfl

/-- C10: every row of an aggregated daily-count table has count at least one;
consequently every defined baseline mean over such a table is at least one,
and the minimum-baseline filter with the default `min_baseline_mean = 1`
removes nothing. -/
theorem C10_no_zero_count_rows (g : Graph) (t : List DailyRow)
    (h : graphml_to_daily_counts g = Except.ok t) :
    (∀ r ∈ t, (1 : Int) ≤ r.count) ∧
    (∀ (asOf baselineDays : Int) (k : String × String) (b : ℚ) (src : BaselineSource),
      baselineRecordOf t asOf baselineDays k = some (b, src) → 1 ≤ b) ∧
    (∀ asOf baselineDays : Int,
      joinedAfterMinBaseline t asOf baselineDays 1 = joinedRows t asOf baselineDays) := by
  obtain ⟨ht, -⟩ := ok_dailyCounts h
  have hc1 : ∀ r ∈ t, (1 : Int) ≤ r.count := by
    intro r hr
    rw [ht] at hr
    unfold dailyCountsOf at hr
    obtain ⟨k, hk, he⟩ := List.mem_map.mp hr
    have hne := mem_keys3_iff_rows3.mp hk
    have hlen : 0 < (rows3 (extractRows g) k).length := List.length_pos.mpr hne
    rw [← he]
    show (1 : Int) ≤ Int.ofNat (rows3 (extractRows g) k).length
    exact Int.ofNat_le.mpr hlen
  have hc2 : ∀ (asOf baselineDays : Int) (k : String × String) (b : ℚ) (src : BaselineSource),
      baselineRecordOf t asOf baselineDays k = some (b, src) → 1 ≤ b := by
    intro asOf baselineDays k b src hrec
    rw [baselineRecordOf_eq] at hrec
    split_ifs at hrec with hw hb
    · rw [Option.some.injEq, Prod.mk.injEq] at hrec
      rw [← hrec.1]
      exact one_le_meanCounts hb (fun r hr =>
        hc1 r (List.mem_filter.mp (List.mem_filter.mp hr).1).1)
    · rw [Option.some.injEq, Prod.mk.injEq] at hrec
      rw [← hrec.1]
      exact one_le_meanCounts hw (fun r hr =>
        hc1 r (List.mem_filter.mp (List.mem_filter.mp hr).1).1)
  refine ⟨hc1, hc2, ?_⟩
  intro asOf baselineDays
  unfold joinedAfterMinBaseline
  apply List.filter_eq_self.mpr
  intro j hj
  obtain ⟨b, src, -, -, hrec, hb⟩ := mem_joinedRows.mp hj
  have := hc2 asOf baselineDays (joinedKey j) b src hrec
  rw [← hb] at this
  simpa using this

-- ==== Witnesses ====

theorem C2_fallback_trigger_witness :
    sumCounts (rows2 (dfTodayOf exDf 10) ("BB", "X")) ≠ 0 ∧
    (((∃ b, baselineRecordOf exDf 10 7 ("BB", "X") = some (b, BaselineSource.fallback)) ↔
       (rows2 (dfBaseOf exDf 10 7) ("BB", "X") = [] ∧
        rows2 (dfBeforeOf exDf 10) ("BB", "X") ≠ [])) ∧
     ((∃ b, baselineRecordOf exDf 10 7 ("BB", "X") = some (b, BaselineSource.primary)) ↔
       rows2 (dfBaseOf exDf 10 7) ("BB", "X") ≠ [])) :=
  ⟨by decide, C2_fallback_trigger exDf 10 7 ("BB", "X") (by decide)⟩

theorem C4_cameo_mapping_witness :
    ("15").data = '1' :: '5' :: [] ∧ ('1').isDigit = true ∧ ('5').isDigit = true ∧
    classify_event_risk (some "15") ["PROTEST"] = RISK_MILITARY :=
  ⟨by decide, by decide, by decide,
    (C4_cameo_mapping "15" '1' '5' [] ["PROTEST"] (by decide) (by decide) (by decide)).2.1
      (by decide)⟩

theorem C5_baseline_and_fallback_means_witness :
    rows2 (dfTodayOf exDf 10) ("AA", "MILITARY") ≠ [] ∧
    ((rows2 (dfBaseOf exDf 10 7) ("AA", "MILITARY") ≠ [] →
       baselineRecordOf exDf 10 7 ("AA", "MILITARY") =
         some (meanCounts (rows2 (dfBaseOf exDf 10 7) ("AA", "MILITARY")),
           BaselineSource.primary)) ∧
     (rows2 (dfBaseOf exDf 10 7) ("AA", "MILITARY") = [] →
       rows2 (dfBeforeOf exDf 10) ("AA", "MILITARY") ≠ [] →
       baselineRecordOf exDf 10 7 ("AA", "MILITARY") =
         some (meanCounts (rows2 (dfBeforeOf exDf 10) ("AA", "MILITARY")),
           BaselineSource.fallback)) ∧
     (rows2 (dfBeforeOf exDf 10) ("AA", "MILITARY") = [] →
       ∀ minBaselineMean minDeltaRel : ℚ,
         ∀ s ∈ detect_spikes exDf 10 7 minBaselineMean minDeltaRel,
           spikeKey s ≠ ("AA", "MILITARY"))) :=
  ⟨by decide, C5_baseline_and_fallback_means exDf 10 7 ("AA", "MILITARY") (by decide)⟩

theorem C6_delta_threshold_witness :
    ({ country_code := "AA", risk_type := "X", today := -1, baseline := 2 } : JoinedRow) ∈
      joinedAfterMinBaseline exDfC6 10 7 1 ∧
    (spikeRowOf 10 { country_code := "AA", risk_type := "X", today := -1, baseline := 2 } ∈
        detect_spikes exDfC6 10 7 1 1 ↔
      (1 : ℚ) * 100 ≤ |deltaPercent (-1) 2|) :=
  ⟨by with_unfolding_all decide,
   C6_delta_threshold.1 exDfC6 10 7 1 1
     { country_code := "AA", risk_type := "X", today := -1, baseline := 2 }
     (by with_unfolding_all decide)⟩

theorem C7_failure_modes_witness :
    (((∃ e, graphml_to_daily_counts exGraph = Except.error e) ↔ extractRows exGraph = []) ∧
     (dfTodayOf exDf 99 = [] → detect_spikes exDf 99 7 1 1 = []) ∧
     (filteredSpikes exDf 99 7 1 1 = [] → detect_spikes exDf 99 7 1 1 = [])) ∧
    dfTodayOf exDf 99 = [] :=
  ⟨C7_failure_modes exGraph exDf 99 7 1 1, by decide⟩

theorem C8_output_safety_witness :
    (∀ r ∈ exDf, (1 : Int) ≤ r.count) ∧
    (∀ s ∈ detect_spikes exDf 10 7 1 1, 0 < s.baseline ∧ 0 ≤ s.today) :=
  ⟨by decide, C8_output_safety exDf 10 7 1 1 (by decide)⟩

theorem C9_counting_invariant_witness :
    graphml_to_daily_counts exGraph = Except.ok exTable ∧
    ((∀ d : Int, sumCounts (exTable.filter (fun r => r.date = d)) =
        Int.ofNat (((extractRows exGraph).filter (fun r => r.date = d)).length)) ∧
     (∀ nid : String, (countriesOf exGraph nid).Nodup) ∧
     (∀ n ∈ exGraph.nodes, eventRowsOf exGraph n = [] ∨
       ((eventRowsOf exGraph n).map RawRow.country_code = countriesOf exGraph n.nid ∧
         ∀ r ∈ eventRowsOf exGraph n,
           r.risk_type = classify_event_risk (getAttr n "cameo") (themesOf exGraph n.nid)))) :=
  ⟨by with_unfolding_all rfl,
   C9_counting_invariant exGraph exTable (by with_unfolding_all rfl)⟩

theorem C10_no_zero_count_rows_witness :
    graphml_to_daily_counts exGraph = Except.ok exTable ∧
    ((∀ r ∈ exTable, (1 : Int) ≤ r.count) ∧
     (∀ (asOf baselineDays : Int) (k : String × String) (b : ℚ) (src : BaselineSource),
       baselineRecordOf exTable asOf baselineDays k = some (b, src) → 1 ≤ b) ∧
     (∀ asOf baselineDays : Int,
       joinedAfterMinBaseline exTable asOf baselineDays 1 = joinedRows exTable asOf baselineDays)) :=
  ⟨by with_unfolding_all rfl,
   C10_no_zero_count_rows exGraph exTable (by with_unfolding_all rfl)⟩

end RiskingMap
